import Mathlib

/-!
Verification development for the client-side resilience utilities of the
repository (rate limiter, circuit breaker, retry wrappers, captcha widget).
The definitions below are shallow embeddings of the TypeScript source in
src/src/utils/rateLimiter.ts, src/src/services/api.ts,
src/src/components/PendingFiles.tsx and the error-handler module; JavaScript
millisecond timestamps are modelled as Nat, the limiter Map as a function
from keys to optional entries, and asynchronous operations as explicit
per-attempt outcome functions.
-/

namespace Spec2Proof

/-! ## RateLimiter (src/src/utils/rateLimiter.ts, lines 3-101)

A fixed-window counter.  The TypeScript class keeps a
Map from string keys to entries with a count and an absolute resetTime.
The Map is modelled extensionally as a function from keys to optional
entries; Date.now() is passed in explicitly as the argument now. -/

structure RateLimitConfig where
  maxRequests : Nat
  windowMs : Nat
deriving DecidableEq, Repr

structure RateLimitEntry where
  count : Nat
  resetTime : Nat
deriving DecidableEq, Repr

def LimiterState : Type := String → Option RateLimitEntry

def emptyLimiter : LimiterState := fun _ => none

/-- Map.set: point update of the entry map. -/
def setEntry (k : String) (e : RateLimitEntry) (s : LimiterState) : LimiterState :=
  fun q => if q = k then some e else s q

/-- RateLimiter.cleanup: delete every entry whose resetTime has passed
(the source deletes a key when now > entry.resetTime). -/
def cleanup (now : Nat) (s : LimiterState) : LimiterState :=
  fun q =>
    match s q with
    | none => none
    | some e => if e.resetTime < now then none else some e

/-- RateLimiter.isAllowed, for the entry already resolved to the derived key:
missing entry creates a fresh window with count 1; an expired entry resets the
window; a full active entry is rejected; otherwise the count is incremented. -/
def stepKey (cfg : RateLimitConfig) (now : Nat) : Option RateLimitEntry → Bool × Option RateLimitEntry
  | none => (true, some ⟨1, now + cfg.windowMs⟩)
  | some e =>
    if e.resetTime < now then (true, some ⟨1, now + cfg.windowMs⟩)
    else if cfg.maxRequests ≤ e.count then (false, some e)
    else (true, some ⟨e.count + 1, e.resetTime⟩)

/-- RateLimiter.isAllowed (lines 38-68): cleanup first, then look up the
derived key and follow the three branches of the source. -/
def isAllowed (cfg : RateLimitConfig) (k : String) (now : Nat) (s : LimiterState) :
    Bool × LimiterState :=
  let s1 := cleanup now s
  match s1 k with
  | none => (true, setEntry k ⟨1, now + cfg.windowMs⟩ s1)
  | some e =>
    if e.resetTime < now then (true, setEntry k ⟨1, now + cfg.windowMs⟩ s1)
    else if cfg.maxRequests ≤ e.count then (false, s1)
    else (true, setEntry k ⟨e.count + 1, e.resetTime⟩ s1)

/-- RateLimiter.getRemainingTime (lines 70-84). -/
def getRemainingTime (k : String) (now : Nat) (s : LimiterState) : Nat :=
  match s k with
  | none => 0
  | some e => if e.resetTime < now then 0 else e.resetTime - now

/-- A sequence of isAllowed calls at a single derived key, returning the final
state and the list of results. -/
def runCalls (cfg : RateLimitConfig) (k : String) (s : LimiterState) :
    List Nat → LimiterState × List Bool
  | [] => (s, [])
  | t :: ts =>
    let r := isAllowed cfg k t s
    let rest := runCalls cfg k r.2 ts
    (rest.1, r.1 :: rest.2)

/-- The per-key trace semantics matching runCalls through the projection at k. -/
def runKey (cfg : RateLimitConfig) : Option RateLimitEntry → List Nat → Option RateLimitEntry × List Bool
  | e, [] => (e, [])
  | e, t :: ts =>
    let r := stepKey cfg t e
    let rest := runKey cfg r.2 ts
    (rest.1, r.1 :: rest.2)

/-- Number of admitted calls (true results) in a same-key trace. -/
def admittedCount (cfg : RateLimitConfig) (k : String) (s : LimiterState) (ts : List Nat) : Nat :=
  ((runCalls cfg k s ts).2).count true

/-- Call times in nondecreasing order (clock monotonicity of a real trace). -/
def timesOrdered : List Nat → Bool
  | [] => true
  | [_] => true
  | a :: b :: l => decide (a ≤ b) && timesOrdered (b :: l)

/-- Number of admitted calls whose times fall in the half-open window
[a, a + windowMs). -/
def admittedInWindow (cfg : RateLimitConfig) (k : String) (s : LimiterState)
    (ts : List Nat) (a : Nat) : Nat :=
  ((ts.zip (runCalls cfg k s ts).2).filter
    (fun p => p.2 && decide (a ≤ p.1) && decide (p.1 < a + cfg.windowMs))).length

lemma cleanup_apply (now : Nat) (s : LimiterState) (k : String) :
    cleanup now s k =
      match s k with
      | none => none
      | some e => if e.resetTime < now then none else some e := rfl

lemma setEntry_self (k : String) (e : RateLimitEntry) (s : LimiterState) :
    setEntry k e s k = some e := by
  simp [setEntry]

/-- The result of isAllowed is determined by the entry at the derived key. -/
lemma isAllowed_fst (cfg : RateLimitConfig) (k : String) (now : Nat) (s : LimiterState) :
    (isAllowed cfg k now s).1 = (stepKey cfg now (s k)).1 := by
  unfold isAllowed stepKey
  cases h : s k with
  | none => simp [cleanup_apply, h]
  | some e =>
    by_cases he : e.resetTime < now
    · simp [cleanup_apply, h, he]
    · by_cases hc : cfg.maxRequests ≤ e.count <;> simp [cleanup_apply, h, he, hc]

/-- The effect of isAllowed on the entry at the derived key is stepKey. -/
lemma isAllowed_at_key (cfg : RateLimitConfig) (k : String) (now : Nat) (s : LimiterState) :
    (isAllowed cfg k now s).2 k = (stepKey cfg now (s k)).2 := by
  unfold isAllowed stepKey
  cases h : s k with
  | none => simp [cleanup_apply, h, setEntry_self]
  | some e =>
    by_cases he : e.resetTime < now
    · simp [cleanup_apply, h, he, setEntry_self]
    · by_cases hc : cfg.maxRequests ≤ e.count <;>
        simp [cleanup_apply, h, he, hc, setEntry_self]

/-- A same-key trace is simulated by the per-key semantics. -/
lemma runCalls_eq_runKey (cfg : RateLimitConfig) (k : String) :
    ∀ (ts : List Nat) (s : LimiterState),
      (runCalls cfg k s ts).2 = (runKey cfg (s k) ts).2 ∧
      (runCalls cfg k s ts).1 k = (runKey cfg (s k) ts).1 := by
  intro ts
  induction ts with
  | nil => intro s; exact ⟨rfl, rfl⟩
  | cons t ts ih =>
    intro s
    have h1 := isAllowed_fst cfg k t s
    have h2 := isAllowed_at_key cfg k t s
    have ihs := ih (isAllowed cfg k t s).2
    constructor
    · show (isAllowed cfg k t s).1 :: (runCalls cfg k (isAllowed cfg k t s).2 ts).2 = _
      rw [h1, ihs.1, h2]
      rfl
    · show (runCalls cfg k (isAllowed cfg k t s).2 ts).1 k = _
      rw [ihs.2, h2]
      rfl

/-- While an entry stays inside its window (no call time after resetTime), the
number of further admissions is bounded by what is left of the quota. -/
lemma runKey_count_le (cfg : RateLimitConfig) :
    ∀ (ts : List Nat) (c r : Nat), (∀ t ∈ ts, ¬ r < t) →
      ((runKey cfg (some ⟨c, r⟩) ts).2).count true ≤ cfg.maxRequests - c := by
  intro ts
  induction ts with
  | nil => intro c r _; simp [runKey]
  | cons t ts ih =>
    intro c r hw
    have ht : ¬ r < t := hw t (by simp)
    have hw' : ∀ x ∈ ts, ¬ r < x := fun x hx => hw x (by simp [hx])
    by_cases hc : cfg.maxRequests ≤ c
    · have : runKey cfg (some ⟨c, r⟩) (t :: ts) =
        ((runKey cfg (some ⟨c, r⟩) ts).1, false :: (runKey cfg (some ⟨c, r⟩) ts).2) := by
        simp [runKey, stepKey, ht, hc]
      rw [this]
      simpa using ih c r hw'
    · have : runKey cfg (some ⟨c, r⟩) (t :: ts) =
        ((runKey cfg (some ⟨c + 1, r⟩) ts).1, true :: (runKey cfg (some ⟨c + 1, r⟩) ts).2) := by
        simp [runKey, stepKey, ht, hc]
      rw [this]
      have := ih (c + 1) r hw'
      simp [List.count_cons]
      omega

/-- While an entry stays inside its window and the quota is not yet reached,
every call is admitted and each admission increments the stored count. -/
lemma runKey_fill (cfg : RateLimitConfig) :
    ∀ (ts : List Nat) (c r : Nat), (∀ t ∈ ts, ¬ r < t) →
      c + ts.length ≤ cfg.maxRequests →
      runKey cfg (some ⟨c, r⟩) ts = (some ⟨c + ts.length, r⟩, List.replicate ts.length true) := by
  intro ts
  induction ts with
  | nil => intro c r _ _; simp [runKey]
  | cons t ts ih =>
    intro c r hw hlen
    have ht : ¬ r < t := hw t (by simp)
    have hw' : ∀ x ∈ ts, ¬ r < x := fun x hx => hw x (by simp [hx])
    have hc : ¬ cfg.maxRequests ≤ c := by simp at hlen; omega
    have hrec := ih (c + 1) r hw' (by simp at hlen ⊢; omega)
    have : runKey cfg (some ⟨c, r⟩) (t :: ts) =
        ((runKey cfg (some ⟨c + 1, r⟩) ts).1, true :: (runKey cfg (some ⟨c + 1, r⟩) ts).2) := by
      simp [runKey, stepKey, ht, hc]
    rw [this, hrec]
    simp [List.replicate_succ]
    omega

/-- Claim C1, amended: with maxRequests at least 1, starting from a state with
no entry for the key, a same-key trace whose call times all lie within
windowMs of the first call (the fixed window the first call opens) is admitted
at most maxRequests times.  The original sliding-window reading of the claim
is refuted by rateLimiter_sliding_window_cex below. -/
theorem rateLimiter_fixed_window_bound (cfg : RateLimitConfig) (k : String)
    (s : LimiterState) (t0 : Nat) (ts : List Nat)
    (hmax : 1 ≤ cfg.maxRequests) (hfresh : s k = none)
    (hw : ∀ t ∈ ts, t ≤ t0 + cfg.windowMs) :
    admittedCount cfg k s (t0 :: ts) ≤ cfg.maxRequests := by
  unfold admittedCount
  rw [(runCalls_eq_runKey cfg k (t0 :: ts) s).1, hfresh]
  have hstep : runKey cfg none (t0 :: ts) =
      ((runKey cfg (some ⟨1, t0 + cfg.windowMs⟩) ts).1,
        true :: (runKey cfg (some ⟨1, t0 + cfg.windowMs⟩) ts).2) := by
    simp [runKey, stepKey]
  rw [hstep]
  have hb := runKey_count_le cfg ts 1 (t0 + cfg.windowMs)
    (fun t htm => by have := hw t htm; omega)
  simp [List.count_cons]
  omega

/-- Closed witness for rateLimiter_fixed_window_bound at a concrete
configuration, trace and fresh state. -/
theorem rateLimiter_fixed_window_bound_witness :
    admittedCount ⟨2, 3⟩ "k" emptyLimiter (0 :: [1, 2, 3]) ≤ 2 :=
  rateLimiter_fixed_window_bound ⟨2, 3⟩ "k" emptyLimiter 0 [1, 2, 3]
    (by decide) rfl (by decide)

/-- Claim C1, counterexample: the limiter does admit more than maxRequests
calls inside a single sliding window of windowMs milliseconds.  With
maxRequests 2 and windowMs 3, the trace 0, 3, 4, 5 is fully admitted and the
window starting at 3 contains the three admitted calls at 3, 4 and 5. -/
theorem rateLimiter_sliding_window_cex :
    ¬ (∀ (cfg : RateLimitConfig) (k : String) (s : LimiterState) (ts : List Nat) (a : Nat),
        1 ≤ cfg.maxRequests → timesOrdered ts = true →
        admittedInWindow cfg k s ts a ≤ cfg.maxRequests) := by
  intro h
  have := h ⟨2, 3⟩ "k" emptyLimiter [0, 3, 4, 5] 3 (by decide) (by decide)
  revert this
  decide

/-- Claim C3, counterexample: after the quota is consumed, a call made exactly
windowMs milliseconds after the first call (waiting at least windowMs, as the
claim reads) is still rejected, because the source resets only when
now is strictly greater than resetTime.  Concretely with maxRequests 1 and
windowMs 5: call at 0 is admitted, call at 5 is rejected. -/
theorem rateLimiter_reset_boundary_cex :
    ¬ (∀ (cfg : RateLimitConfig) (k : String) (s : LimiterState) (t0 : Nat)
        (ts : List Nat) (t1 : Nat),
        1 ≤ cfg.maxRequests → s k = none → ts.length + 1 = cfg.maxRequests →
        (∀ x ∈ ts, x ≤ t0 + cfg.windowMs) → t0 + cfg.windowMs ≤ t1 →
        (isAllowed cfg k t1 (runCalls cfg k s (t0 :: ts)).1).1 = true) := by
  intro h
  have := h ⟨1, 5⟩ "k" emptyLimiter 0 [] 5 (by decide) rfl (by decide)
    (by decide) (by decide)
  revert this
  decide

/-- Claim C3, amended: after maxRequests calls with the same derived key all
within windowMs of the first call, every call still inside that window is
rejected; and a call made strictly more than windowMs after the first call is
admitted and resets the count of the key to 1 (with a fresh resetTime). -/
theorem rateLimiter_exhaust_then_reset (cfg : RateLimitConfig) (k : String)
    (s : LimiterState) (t0 : Nat) (ts : List Nat) (t1 t2 : Nat)
    (hfresh : s k = none)
    (hlen : ts.length + 1 = cfg.maxRequests)
    (hw : ∀ x ∈ ts, x ≤ t0 + cfg.windowMs)
    (ht1 : t1 ≤ t0 + cfg.windowMs) (ht2 : t0 + cfg.windowMs < t2) :
    (runCalls cfg k s (t0 :: ts)).2 = List.replicate cfg.maxRequests true ∧
    (isAllowed cfg k t1 (runCalls cfg k s (t0 :: ts)).1).1 = false ∧
    (isAllowed cfg k t2 (runCalls cfg k s (t0 :: ts)).1).1 = true ∧
    (isAllowed cfg k t2 (runCalls cfg k s (t0 :: ts)).1).2 k =
      some ⟨1, t2 + cfg.windowMs⟩ := by
  have hsim := runCalls_eq_runKey cfg k (t0 :: ts) s
  have hfill := runKey_fill cfg ts 1 (t0 + cfg.windowMs)
    (fun t htm => by have := hw t htm; omega) (by omega)
  have hrunkey : runKey cfg (s k) (t0 :: ts) =
      (some ⟨1 + ts.length, t0 + cfg.windowMs⟩, true :: List.replicate ts.length true) := by
    rw [hfresh]
    show ((runKey cfg (some ⟨1, t0 + cfg.windowMs⟩) ts).1,
        true :: (runKey cfg (some ⟨1, t0 + cfg.windowMs⟩) ts).2) = _
    rw [hfill]
  have hfinal : (runCalls cfg k s (t0 :: ts)).1 k =
      some ⟨1 + ts.length, t0 + cfg.windowMs⟩ := by
    rw [hsim.2, hrunkey]
  refine ⟨?_, ?_, ?_, ?_⟩
  · rw [hsim.1, hrunkey]
    have : cfg.maxRequests = ts.length + 1 := hlen.symm
    rw [this, List.replicate_succ]
  · rw [isAllowed_fst, hfinal]
    have hnr : ¬ (t0 + cfg.windowMs < t1) := by omega
    have hcap : cfg.maxRequests ≤ 1 + ts.length := by omega
    simp [stepKey, hnr, hcap]
  · rw [isAllowed_fst, hfinal]
    simp [stepKey, ht2]
  · rw [isAllowed_at_key, hfinal]
    simp [stepKey, ht2]

/-- Closed witness for rateLimiter_exhaust_then_reset: maxRequests 2,
windowMs 5, calls at 0 and 1, a rejected call at 3 and an admitted reset
call at 6. -/
theorem rateLimiter_exhaust_then_reset_witness :
    (runCalls ⟨2, 5⟩ "k" emptyLimiter (0 :: [1])).2 = List.replicate 2 true ∧
    (isAllowed ⟨2, 5⟩ "k" 3 (runCalls ⟨2, 5⟩ "k" emptyLimiter (0 :: [1])).1).1 = false ∧
    (isAllowed ⟨2, 5⟩ "k" 6 (runCalls ⟨2, 5⟩ "k" emptyLimiter (0 :: [1])).1).1 = true ∧
    (isAllowed ⟨2, 5⟩ "k" 6 (runCalls ⟨2, 5⟩ "k" emptyLimiter (0 :: [1])).1).2 "k" =
      some ⟨1, 11⟩ :=
  rateLimiter_exhaust_then_reset ⟨2, 5⟩ "k" emptyLimiter 0 [1] 3 6
    rfl (by decide) (by decide) (by decide) (by decide)

/-- Claim C9, amended: when the derived key holds an active (unexpired) entry
whose count has reached maxRequests, isAllowed returns false and its only
effect is the cleanup sweep that every call performs first: the derived key
and every other unexpired entry are unchanged and no entry is created or
modified, but expired entries of other keys are removed by the sweep.  The
original claim that no entry at all is removed is refuted by
isAllowed_reject_mutation_cex. -/
theorem isAllowed_reject_frame (cfg : RateLimitConfig) (k : String) (now : Nat)
    (s : LimiterState) (e : RateLimitEntry)
    (h1 : s k = some e) (h2 : ¬ e.resetTime < now) (h3 : cfg.maxRequests ≤ e.count) :
    isAllowed cfg k now s = (false, cleanup now s) ∧
    cleanup now s k = some e ∧
    (∀ q e0, s q = some e0 → ¬ e0.resetTime < now → cleanup now s q = some e0) ∧
    (∀ q, cleanup now s q = none ∨ cleanup now s q = s q) := by
  have hck : cleanup now s k = some e := by
    rw [cleanup_apply, h1]
    simp [h2]
  refine ⟨?_, hck, ?_, ?_⟩
  · simp [isAllowed, hck, h2, h3]
  · intro q e0 hq he0
    rw [cleanup_apply, hq]
    simp [he0]
  · intro q
    rw [cleanup_apply]
    cases hq : s q with
    | none => exact Or.inl rfl
    | some e0 =>
      by_cases he0 : e0.resetTime < now
      · exact Or.inl (by simp [he0])
      · exact Or.inr (by simp [he0])

/-- Concrete limiter state for the claim C9 witness: a single active entry. -/
def rejectStateW : LimiterState :=
  fun q => if q = "a" then some ⟨1, 10⟩ else none

/-- Closed witness for isAllowed_reject_frame. -/
theorem isAllowed_reject_frame_witness :
    isAllowed ⟨1, 10⟩ "a" 5 rejectStateW = (false, cleanup 5 rejectStateW) ∧
    cleanup 5 rejectStateW "a" = some ⟨1, 10⟩ ∧
    (∀ q e0, rejectStateW q = some e0 → ¬ e0.resetTime < 5 →
      cleanup 5 rejectStateW q = some e0) ∧
    (∀ q, cleanup 5 rejectStateW q = none ∨ cleanup 5 rejectStateW q = rejectStateW q) :=
  isAllowed_reject_frame ⟨1, 10⟩ "a" 5 rejectStateW ⟨1, 10⟩ (by decide) (by decide) (by decide)

/-- Concrete limiter state for the claim C9 counterexample: the derived key a
holds a full active entry while key b holds an expired one. -/
def rejectStateCex : LimiterState :=
  fun q => if q = "a" then some ⟨2, 10⟩ else if q = "b" then some ⟨1, 3⟩ else none

/-- Claim C9, counterexample: a rejected isAllowed call does mutate the
limiter state, because the cleanup sweep at the start of every call removes
expired entries of other keys.  At time 5 the rejected call on key a deletes
the expired entry of key b. -/
theorem isAllowed_reject_mutation_cex :
    ¬ (∀ (cfg : RateLimitConfig) (k : String) (now : Nat) (s : LimiterState)
        (e : RateLimitEntry),
        s k = some e → ¬ e.resetTime < now → cfg.maxRequests ≤ e.count →
        isAllowed cfg k now s = (false, s)) := by
  intro h
  have h2 := h ⟨2, 10⟩ "a" 5 rejectStateCex ⟨2, 10⟩ (by decide) (by decide) (by decide)
  have h3 := congrFun (congrArg Prod.snd h2) "b"
  exact absurd h3 (by decide)

/-! ## CircuitBreaker (src/src/utils/rateLimiter.ts, lines 220-272)

The wrapped async operation is modelled by the Bool opOk (true when the
invocation would resolve).  ExecResult.circuitOpen is the rejection thrown on
the OPEN fast path, produced exactly when the wrapped operation is not
invoked; ok and err are the outcomes of an actual invocation. -/

inductive CBState
  | CLOSED
  | OPEN
  | HALF_OPEN
deriving DecidableEq, Repr

structure CircuitBreaker where
  threshold : Nat
  timeout : Nat
  resetTimeout : Nat
  failureCount : Nat
  lastFailureTime : Nat
  state : CBState
deriving DecidableEq, Repr

/-- The constructor: counters start at zero and the breaker starts CLOSED. -/
def CircuitBreaker.fresh (threshold timeout resetTimeout : Nat) : CircuitBreaker :=
  ⟨threshold, timeout, resetTimeout, 0, 0, .CLOSED⟩

inductive ExecResult
  | ok
  | err
  | circuitOpen
deriving DecidableEq, Repr

/-- CircuitBreaker.onSuccess. -/
def onSuccess (cb : CircuitBreaker) : CircuitBreaker :=
  { cb with failureCount := 0, state := .CLOSED }

/-- CircuitBreaker.onFailure: count the failure, record its time, and trip to
OPEN once the threshold is reached. -/
def onFailure (cb : CircuitBreaker) (now : Nat) : CircuitBreaker :=
  let cb1 := { cb with failureCount := cb.failureCount + 1, lastFailureTime := now }
  if cb1.threshold ≤ cb1.failureCount then { cb1 with state := .OPEN } else cb1

/-- The try block of execute: invoke the operation and dispatch on its outcome. -/
def invokeOp (cb : CircuitBreaker) (now : Nat) (opOk : Bool) : ExecResult × CircuitBreaker :=
  if opOk then (.ok, onSuccess cb) else (.err, onFailure cb now)

/-- CircuitBreaker.execute (lines 232-249): when OPEN, either probe
(HALF_OPEN) if strictly more than resetTimeout elapsed since the last
failure, or reject without invoking the operation. -/
def execute (cb : CircuitBreaker) (now : Nat) (opOk : Bool) : ExecResult × CircuitBreaker :=
  if cb.state = .OPEN then
    if cb.resetTimeout < now - cb.lastFailureTime then
      invokeOp { cb with state := .HALF_OPEN } now opOk
    else (.circuitOpen, cb)
  else invokeOp cb now opOk

/-- A sequence of execute calls, each given by its Date.now() and the outcome
the wrapped operation would have. -/
def execSeq (cb : CircuitBreaker) : List (Nat × Bool) → CircuitBreaker × List ExecResult
  | [] => (cb, [])
  | c :: cs =>
    let r := execute cb c.1 c.2
    let rest := execSeq r.2 cs
    (rest.1, r.1 :: rest.2)

/-- A nonempty streak of failing invocations from a CLOSED breaker that stays
within the threshold: every call invokes the operation and fails, the failure
count accumulates, the last failure time is the last call time, and the
breaker trips to OPEN exactly when the threshold is reached. -/
lemma execSeq_failures :
    ∀ (ts : List Nat) (cb : CircuitBreaker), cb.state = .CLOSED →
      cb.failureCount + ts.length ≤ cb.threshold → ts ≠ [] →
      (execSeq cb (ts.map fun t => (t, false))).2 = List.replicate ts.length .err ∧
      (execSeq cb (ts.map fun t => (t, false))).1.failureCount = cb.failureCount + ts.length ∧
      (execSeq cb (ts.map fun t => (t, false))).1.lastFailureTime = ts.getLastD cb.lastFailureTime ∧
      (execSeq cb (ts.map fun t => (t, false))).1.threshold = cb.threshold ∧
      (execSeq cb (ts.map fun t => (t, false))).1.resetTimeout = cb.resetTimeout ∧
      (execSeq cb (ts.map fun t => (t, false))).1.state =
        (if cb.threshold ≤ cb.failureCount + ts.length then CBState.OPEN else CBState.CLOSED) := by
  intro ts
  induction ts with
  | nil => intro cb _ _ hne; exact absurd rfl hne
  | cons t ts ih =>
    intro cb hclosed hlen _
    have hstep : execute cb t false = (.err, onFailure cb t) := by
      have : ¬ cb.state = CBState.OPEN := by rw [hclosed]; intro hco; cases hco
      simp [execute, this, invokeOp]
    by_cases hts : ts = []
    · subst hts
      simp only [List.map, execSeq, hstep]
      simp [onFailure, List.getLastD]
      by_cases htr : cb.threshold ≤ cb.failureCount + 1 <;> simp [htr, hclosed]
    · have hcb1 : onFailure cb t =
          { cb with failureCount := cb.failureCount + 1, lastFailureTime := t,
                    state := .CLOSED } := by
        have hlt : ¬ cb.threshold ≤ cb.failureCount + 1 := by
          have : 1 ≤ ts.length := by
            cases ts with
            | nil => exact absurd rfl hts
            | cons a l => simp
          simp at hlen
          omega
        simp [onFailure, hlt, hclosed]
      have ihr := ih (onFailure cb t)
        (by rw [hcb1]) (by rw [hcb1]; simp at hlen ⊢; omega) hts
      rw [hcb1] at ihr
      simp only [List.map, execSeq, hstep]
      refine ⟨?_, ?_, ?_, ?_, ?_, ?_⟩
      · rw [List.length_cons, List.replicate_succ]
        rw [hcb1]
        exact congrArg (ExecResult.err :: ·) ihr.1
      · rw [hcb1]
        rw [ihr.2.1]
        simp
        omega
      · rw [hcb1]
        rw [ihr.2.2.1, List.getLastD_cons]
      · rw [hcb1]; exact ihr.2.2.2.1
      · rw [hcb1]; exact ihr.2.2.2.2.1
      · rw [hcb1]
        rw [ihr.2.2.2.2.2]
        have : cb.failureCount + 1 + ts.length = cb.failureCount + (ts.length + 1) := by omega
        simp [this]

/-- Claim C2, amended: after threshold consecutive failed execute calls from a
fresh breaker the state is OPEN with failureCount = threshold and
lastFailureTime the time of the last failure; while OPEN, an execute within
resetTimeout of the last failure (now - lastFailureTime less than or equal to
resetTimeout) returns the circuit-open rejection without invoking the
operation and leaves the breaker unchanged; while OPEN with strictly more
than resetTimeout elapsed, the call invokes the operation (HALF_OPEN probe):
on success the state is CLOSED with failureCount 0, on failure the state is
OPEN again.  The original claim read at least resetTimeout for the probe; at
exactly resetTimeout the source still rejects (see
circuitBreaker_reset_boundary_cex). -/
theorem circuitBreaker_lifecycle :
    (∀ (T tmo R : Nat) (ts : List Nat), 1 ≤ T → ts.length = T →
      (execSeq (CircuitBreaker.fresh T tmo R) (ts.map fun t => (t, false))).2 =
        List.replicate T .err ∧
      (execSeq (CircuitBreaker.fresh T tmo R) (ts.map fun t => (t, false))).1.state = .OPEN ∧
      (execSeq (CircuitBreaker.fresh T tmo R) (ts.map fun t => (t, false))).1.failureCount = T ∧
      (execSeq (CircuitBreaker.fresh T tmo R) (ts.map fun t => (t, false))).1.lastFailureTime =
        ts.getLastD 0) ∧
    (∀ (cb : CircuitBreaker) (now : Nat) (opOk : Bool), cb.state = .OPEN →
      now - cb.lastFailureTime ≤ cb.resetTimeout →
      execute cb now opOk = (.circuitOpen, cb)) ∧
    (∀ (cb : CircuitBreaker) (now : Nat), cb.state = .OPEN →
      cb.resetTimeout < now - cb.lastFailureTime → cb.threshold ≤ cb.failureCount →
      (execute cb now true).1 = .ok ∧
      (execute cb now true).2.state = .CLOSED ∧
      (execute cb now true).2.failureCount = 0 ∧
      (execute cb now false).1 = .err ∧
      (execute cb now false).2.state = .OPEN) := by
  refine ⟨?_, ?_, ?_⟩
  · intro T tmo R ts hT hlen
    have hne : ts ≠ [] := by
      intro hnil
      rw [hnil] at hlen
      simp at hlen
      omega
    have h := execSeq_failures ts (CircuitBreaker.fresh T tmo R) rfl
      (by simp [CircuitBreaker.fresh, hlen]) hne
    refine ⟨?_, ?_, ?_, ?_⟩
    · rw [h.1, hlen]
    · rw [h.2.2.2.2.2]
      simp [CircuitBreaker.fresh, hlen]
    · rw [h.2.1, hlen]
      simp [CircuitBreaker.fresh]
    · rw [h.2.2.1]
      simp [CircuitBreaker.fresh]
  · intro cb now opOk hopen helapsed
    have : ¬ cb.resetTimeout < now - cb.lastFailureTime := by omega
    simp [execute, hopen, this]
  · intro cb now hopen helapsed hcnt
    have hfail : cb.threshold ≤ cb.failureCount + 1 := by omega
    constructor
    · simp [execute, hopen, helapsed, invokeOp]
    constructor
    · simp [execute, hopen, helapsed, invokeOp, onSuccess]
    constructor
    · simp [execute, hopen, helapsed, invokeOp, onSuccess]
    constructor
    · simp [execute, hopen, helapsed, invokeOp]
    · simp [execute, hopen, helapsed, invokeOp, onFailure, hfail]

/-- Closed witness for circuitBreaker_lifecycle: threshold 2, resetTimeout 5,
failures at times 3 and 4; a rejected probe at time 9 and an admitted probe
at time 10. -/
theorem circuitBreaker_lifecycle_witness :
    ((execSeq (CircuitBreaker.fresh 2 0 5) ([3, 4].map fun t => (t, false))).2 =
        List.replicate 2 .err ∧
      (execSeq (CircuitBreaker.fresh 2 0 5) ([3, 4].map fun t => (t, false))).1.state = .OPEN ∧
      (execSeq (CircuitBreaker.fresh 2 0 5) ([3, 4].map fun t => (t, false))).1.failureCount = 2 ∧
      (execSeq (CircuitBreaker.fresh 2 0 5) ([3, 4].map fun t => (t, false))).1.lastFailureTime =
        [3, 4].getLastD 0) ∧
    execute ⟨2, 0, 5, 2, 4, .OPEN⟩ 9 true = (.circuitOpen, ⟨2, 0, 5, 2, 4, .OPEN⟩) ∧
    ((execute ⟨2, 0, 5, 2, 4, .OPEN⟩ 10 true).1 = .ok ∧
      (execute ⟨2, 0, 5, 2, 4, .OPEN⟩ 10 true).2.state = .CLOSED ∧
      (execute ⟨2, 0, 5, 2, 4, .OPEN⟩ 10 true).2.failureCount = 0 ∧
      (execute ⟨2, 0, 5, 2, 4, .OPEN⟩ 10 false).1 = .err ∧
      (execute ⟨2, 0, 5, 2, 4, .OPEN⟩ 10 false).2.state = .OPEN) :=
  ⟨circuitBreaker_lifecycle.1 2 0 5 [3, 4] (by decide) (by decide),
    circuitBreaker_lifecycle.2.1 ⟨2, 0, 5, 2, 4, .OPEN⟩ 9 true rfl (by decide),
    circuitBreaker_lifecycle.2.2 ⟨2, 0, 5, 2, 4, .OPEN⟩ 10 rfl (by decide) (by decide)⟩

/-- Claim C2, counterexample: an execute attempted exactly resetTimeout
milliseconds after the last failure (waiting at least resetTimeout, as the
claim reads) is still rejected without invoking the operation, because the
source probes only when now - lastFailureTime is strictly greater than
resetTimeout.  Concretely: threshold 1, resetTimeout 5, failure at time 0,
probe at time 5. -/
theorem circuitBreaker_reset_boundary_cex :
    ¬ (∀ (cb : CircuitBreaker) (now : Nat) (opOk : Bool),
        cb.state = .OPEN → cb.lastFailureTime + cb.resetTimeout ≤ now →
        (execute cb now opOk).1 ≠ .circuitOpen) := by
  intro h
  exact h (execSeq (CircuitBreaker.fresh 1 0 5) [(0, false)]).1 5 true
    (by decide) (by decide) (by decide)

/-! ## Error classification and withRetry (errorHandler module, src/unnamed/part_001)

handleApiError maps a raw axios-style error (either no response, or a
response with an HTTP status) to one of the AppError subclasses; the kind
records the subclass and status the numeric status the constructor stores
(ValidationError always stores 400, also for 422 responses; NetworkError
stores 0, which is falsy in the status test of withRetry). -/

inductive RawError
  | noResponse
  | response (status : Nat)
deriving DecidableEq, Repr

inductive ErrKind
  | networkKind
  | validationKind
  | authenticationKind
  | authorizationKind
  | notFoundKind
  | rateLimitKind
  | serverKind
  | genericKind
deriving DecidableEq, Repr

structure AppError where
  kind : ErrKind
  status : Nat
deriving DecidableEq, Repr

/-- handleApiError (part_001 lines 543-623), restricted to the fields the
retry decision reads. -/
def handleApiError : RawError → AppError
  | .noResponse => ⟨.networkKind, 0⟩
  | .response status =>
    if status = 400 then ⟨.validationKind, 400⟩
    else if status = 401 then ⟨.authenticationKind, 401⟩
    else if status = 403 then ⟨.authorizationKind, 403⟩
    else if status = 404 then ⟨.notFoundKind, 404⟩
    else if status = 422 then ⟨.validationKind, 400⟩
    else if status = 429 then ⟨.rateLimitKind, 429⟩
    else if status = 500 ∨ status = 502 ∨ status = 503 ∨ status = 504 then ⟨.serverKind, 500⟩
    else ⟨.genericKind, status⟩

/-- The do-not-retry test of withRetry: the four client-error subclasses, or a
truthy status in [400, 500). -/
def nonRetryable (e : AppError) : Bool :=
  e.kind == .authenticationKind || e.kind == .authorizationKind ||
  e.kind == .validationKind || e.kind == .notFoundKind ||
  (!(e.status == 0) && decide (400 ≤ e.status) && decide (e.status < 500))

/-- The retry loop of withRetry (part_001 lines 720-755).  The attempt
outcomes of the wrapped operation are supplied as res (none is success);
fuel counts the attempts still permitted, maxRetries + 1 - attempt at every
reachable call, so fuel 0 is the fall-through throw of the uninitialized
lastError (modelled as Except.error none).  Returns how many times the
operation was invoked together with the outcome; the backoff sleeps do not
affect either. -/
def withRetryGo (res : Nat → Option RawError) (maxRetries : Nat) :
    Nat → Nat → Nat × Except (Option AppError) Unit
  | _, 0 => (0, Except.error none)
  | attempt, fuel + 1 =>
    match res attempt with
    | none => (1, Except.ok ())
    | some raw =>
      let e := handleApiError raw
      if nonRetryable e then (1, Except.error (some e))
      else if attempt = maxRetries then (1, Except.error (some e))
      else
        let r := withRetryGo res maxRetries (attempt + 1) fuel
        (r.1 + 1, r.2)

/-- withRetry: run the loop from attempt 1. -/
def withRetry (res : Nat → Option RawError) (maxRetries : Nat) :
    Nat × Except (Option AppError) Unit :=
  withRetryGo res maxRetries 1 maxRetries

/-- All attempts in [attempt, maxRetries] fail with retryable errors: the
loop performs exactly fuel = maxRetries + 1 - attempt invocations and rethrows
the classified error of the last attempt. -/
lemma withRetryGo_all_retryable :
    ∀ (fuel : Nat) (res : Nat → Option RawError) (raws : Nat → RawError)
      (maxRetries attempt : Nat),
      attempt + fuel = maxRetries + 1 → 1 ≤ fuel →
      (∀ i, attempt ≤ i → i ≤ maxRetries →
        res i = some (raws i) ∧ nonRetryable (handleApiError (raws i)) = false) →
      withRetryGo res maxRetries attempt fuel =
        (fuel, Except.error (some (handleApiError (raws maxRetries)))) := by
  intro fuel
  induction fuel with
  | zero => intro _ _ _ _ _ h; omega
  | succ fuel ih =>
    intro res raws maxRetries attempt hsum _ hall
    have hle : attempt ≤ maxRetries := by omega
    have hres := hall attempt le_rfl hle
    by_cases hlast : fuel = 0
    · subst hlast
      have hattempt : attempt = maxRetries := by omega
      subst hattempt
      simp [withRetryGo, hres.1, hres.2]
    · have hne : ¬ attempt = maxRetries := by omega
      have hrec := ih res raws maxRetries (attempt + 1) (by omega) (by omega)
        (fun i hi1 hi2 => hall i (by omega) hi2)
      simp only [withRetryGo, hres.1, hres.2, Bool.false_eq_true, if_false, hne, hrec]

/-- Claim C5, confirmed: (1) the do-not-retry test of withRetry holds exactly
for errors classified as AuthenticationError, AuthorizationError,
ValidationError or NotFoundError, or carrying an HTTP status in [400, 500);
(2) when an attempt fails with such an error the loop rethrows it at once,
with no further invocation of the operation, regardless of how many attempts
remain; (3) when every attempt fails with a retryable error the loop invokes
the operation exactly maxRetries times and rethrows the classified error of
the final attempt. -/
theorem withRetry_error_classification :
    (∀ e : AppError, nonRetryable e = true ↔
      (e.kind = .authenticationKind ∨ e.kind = .authorizationKind ∨
        e.kind = .validationKind ∨ e.kind = .notFoundKind ∨
        (400 ≤ e.status ∧ e.status < 500))) ∧
    (∀ (res : Nat → Option RawError) (maxRetries attempt fuel : Nat) (raw : RawError),
      res attempt = some raw → nonRetryable (handleApiError raw) = true →
      withRetryGo res maxRetries attempt (fuel + 1) =
        (1, Except.error (some (handleApiError raw)))) ∧
    (∀ (res : Nat → Option RawError) (raws : Nat → RawError) (maxRetries : Nat),
      1 ≤ maxRetries →
      (∀ i, 1 ≤ i → i ≤ maxRetries →
        res i = some (raws i) ∧ nonRetryable (handleApiError (raws i)) = false) →
      withRetry res maxRetries =
        (maxRetries, Except.error (some (handleApiError (raws maxRetries))))) := by
  refine ⟨?_, ?_, ?_⟩
  · intro e
    rcases e with ⟨kind, status⟩
    cases kind <;> simp [nonRetryable] <;> omega
  · intro res maxRetries attempt fuel raw hres hnr
    simp [withRetryGo, hres, hnr]
  · intro res raws maxRetries h1 hall
    have := withRetryGo_all_retryable maxRetries res raws maxRetries 1 (by omega) h1 hall
    unfold withRetry
    rw [this]

/-- Closed witness for withRetry_error_classification: a 401 response is
nonretryable and rethrown after a single invocation even with fuel left; a
500 response is retried and withRetry performs all 3 invocations before
rethrowing the ServerError classification. -/
theorem withRetry_error_classification_witness :
    (nonRetryable ⟨.authenticationKind, 401⟩ = true ↔
      (ErrKind.authenticationKind = .authenticationKind ∨
        ErrKind.authenticationKind = .authorizationKind ∨
        ErrKind.authenticationKind = .validationKind ∨
        ErrKind.authenticationKind = .notFoundKind ∨
        (400 ≤ 401 ∧ 401 < 500))) ∧
    withRetryGo (fun _ => some (RawError.response 401)) 5 1 (4 + 1) =
      (1, Except.error (some (handleApiError (RawError.response 401)))) ∧
    withRetry (fun _ => some (RawError.response 500)) 3 =
      (3, Except.error (some (handleApiError (RawError.response 500)))) :=
  ⟨withRetry_error_classification.1 ⟨.authenticationKind, 401⟩,
    withRetry_error_classification.2.1 (fun _ => some (RawError.response 401)) 5 1 4
      (RawError.response 401) rfl (by decide),
    withRetry_error_classification.2.2 (fun _ => some (RawError.response 500))
      (fun _ => RawError.response 500) 3 (by decide)
      (fun i _ _ => ⟨rfl, rfl⟩)⟩

/-! ## retryWithBackoff (src/src/utils/rateLimiter.ts, lines 193-218)

The per-attempt outcomes of fn are supplied as res.  maxRetries is an Int
because the source accepts any number; the loop runs for attempt = 1 while
attempt <= maxRetries, so fuel = toNat maxRetries attempts remain at the top
and fuel = toNat maxRetries + 1 - attempt at every reachable call.  Fuel 0 is
the fall-through throw of lastError, which no attempt ever assigned
(modelled as Except.error none).  The first component counts invocations of
fn; the backoff delays and jitter affect neither component and are not
modelled. -/

def retryAux {ε α : Type} (res : Nat → Except ε α) (maxRetries : Int) :
    Nat → Nat → Nat × Except (Option ε) α
  | _, 0 => (0, Except.error none)
  | attempt, fuel + 1 =>
    match res attempt with
    | Except.ok a => (1, Except.ok a)
    | Except.error e =>
      if (attempt : Int) = maxRetries then (1, Except.error (some e))
      else
        let r := retryAux res maxRetries (attempt + 1) fuel
        (r.1 + 1, r.2)

def retryWithBackoff {ε α : Type} (res : Nat → Except ε α) (maxRetries : Int)
    (baseDelay : Nat) : Nat × Except (Option ε) α :=
  retryAux res maxRetries 1 maxRetries.toNat

/-- Claim C7, confirmed: with maxRetries 3, an operation failing twice then
succeeding resolves with the success value after exactly 3 invocations, and an
operation failing on every attempt rejects with the error of the third
invocation after exactly 3 invocations. -/
theorem retryWithBackoff_three_attempts {ε α : Type} :
    (∀ (res : Nat → Except ε α) (e1 e2 : ε) (v : α),
      res 1 = Except.error e1 → res 2 = Except.error e2 → res 3 = Except.ok v →
      retryWithBackoff res 3 100 = (3, Except.ok v)) ∧
    (∀ (res : Nat → Except ε α) (es : Nat → ε),
      (∀ i, res i = Except.error (es i)) →
      retryWithBackoff res 3 100 = (3, Except.error (some (es 3)))) := by
  constructor
  · intro res e1 e2 v h1 h2 h3
    simp [retryWithBackoff, retryAux, h1, h2, h3]
  · intro res es hall
    simp [retryWithBackoff, retryAux, hall 1, hall 2, hall 3]

/-- Attempt outcomes for the claim C7 witness: failures on attempts 1 and 2,
success on attempt 3. -/
def failTwiceRes : Nat → Except Nat Nat := fun i => if i = 3 then Except.ok 42 else Except.error i

/-- Attempt outcomes for the claim C7 witness: every attempt fails. -/
def alwaysFailRes : Nat → Except Nat Nat := fun i => Except.error i

/-- Closed witness for retryWithBackoff_three_attempts. -/
theorem retryWithBackoff_three_attempts_witness :
    retryWithBackoff failTwiceRes 3 100 = (3, Except.ok 42) ∧
    retryWithBackoff alwaysFailRes 3 100 = (3, Except.error (some 3)) :=
  ⟨retryWithBackoff_three_attempts.1 failTwiceRes 1 2 42 rfl rfl rfl,
    retryWithBackoff_three_attempts.2 alwaysFailRes (fun i => i) (fun _ => rfl)⟩

/-- Claim C10, confirmed: with maxRetries below 1 the loop body never runs, so
fn is never invoked (0 invocations) and the final throw rethrows the
uninitialized lastError, i.e. the undefined value rather than an Error. -/
theorem retryWithBackoff_nonpositive {ε α : Type} (res : Nat → Except ε α)
    (baseDelay : Nat) (maxRetries : Int) (h : maxRetries < 1) :
    retryWithBackoff res maxRetries baseDelay = (0, Except.error none) := by
  have h0 : maxRetries.toNat = 0 := Int.toNat_of_nonpos (by omega)
  simp [retryWithBackoff, h0, retryAux]

/-- Closed witness for retryWithBackoff_nonpositive: a negative maxRetries
with an operation that would succeed; it is still never invoked. -/
theorem retryWithBackoff_nonpositive_witness :
    retryWithBackoff (fun _ => Except.ok (7 : Nat)) (-2) 100 =
      (0, Except.error (none : Option Nat)) :=
  retryWithBackoff_nonpositive (fun _ => Except.ok (7 : Nat)) 100 (-2) (by decide)

/-! ## withRateLimit (src/src/utils/rateLimiter.ts, lines 134-148)

The decorated call first consults the limiter; on rejection it throws a
message built from the remaining window time and never reaches the wrapped
function; the invoked flag records whether the wrapped function ran. -/

structure RateLimitedCall (α : Type) where
  outcome : Except String α
  finalState : LimiterState
  invoked : Bool

/-- The thrown message: errorMessage followed by the whole-second wait. -/
def rateLimitMessage (errorMessage : String) (seconds : Nat) : String :=
  errorMessage ++ " Try again in " ++ toString seconds ++ " seconds."

def withRateLimit {α : Type} (cfg : RateLimitConfig) (k : String) (errorMessage : String)
    (now : Nat) (s : LimiterState) (fnResult : α) : RateLimitedCall α :=
  let r := isAllowed cfg k now s
  if r.1 then ⟨Except.ok fnResult, r.2, true⟩
  else
    let remainingTime := getRemainingTime k now r.2
    let seconds := (remainingTime + 999) / 1000
    ⟨Except.error (rateLimitMessage errorMessage seconds), r.2, false⟩

/-- Claim C6, confirmed: whenever the limiter rejects, the decorated call
fails at once with the wrapped function never invoked, and the message states
the whole-second wait computed as the ceiling of remainingTime / 1000
(on naturals, (remainingTime + 999) / 1000). -/
theorem withRateLimit_reject_fails_fast {α : Type} (cfg : RateLimitConfig) (k : String)
    (msg : String) (now : Nat) (s : LimiterState) (v : α)
    (h : (isAllowed cfg k now s).1 = false) :
    withRateLimit cfg k msg now s v =
      ⟨Except.error (rateLimitMessage msg
          ((getRemainingTime k now (isAllowed cfg k now s).2 + 999) / 1000)),
        (isAllowed cfg k now s).2, false⟩ := by
  simp [withRateLimit, h]

/-- Concrete limiter state for the claim C6 witness: quota of 1 consumed, 900
milliseconds of the window left at time 600. -/
def limitedStateW : LimiterState := fun q => if q = "k" then some ⟨1, 1500⟩ else none

/-- Closed witness for withRateLimit_reject_fails_fast; the stated wait is
1 second, the ceiling of 900 milliseconds. -/
theorem withRateLimit_reject_fails_fast_witness :
    withRateLimit ⟨1, 1000⟩ "k" "Rate limit exceeded." 600 limitedStateW (0 : Nat) =
      ⟨Except.error (rateLimitMessage "Rate limit exceeded."
          ((getRemainingTime "k" 600 (isAllowed ⟨1, 1000⟩ "k" 600 limitedStateW).2 + 999) / 1000)),
        (isAllowed ⟨1, 1000⟩ "k" 600 limitedStateW).2, false⟩ :=
  withRateLimit_reject_fails_fast ⟨1, 1000⟩ "k" "Rate limit exceeded." 600 limitedStateW 0
    (by decide)

/-! ## messageRateLimiter key derivation (rateLimiter.ts lines 113-122,
api.ts lines 100-119)

The key generator receives the raw JavaScript argument list of the wrapped
call.  Only the JavaScript value features the generator observes are
modelled: truthiness (for args[0] || default) and string conversion inside
the template literal, under which every plain object renders as
[object Object].  storedUserId is the userId field of the session identity in
localStorage, when one is stored. -/

inductive JSValue
  | strV (s : String)
  | objV
  | undefV
deriving DecidableEq, Repr

def jsTruthy : JSValue → Bool
  | .strV s => !(s == "")
  | .objV => true
  | .undefV => false

def jsToString : JSValue → String
  | .strV s => s
  | .objV => "[object Object]"
  | .undefV => "undefined"

/-- JavaScript a || b. -/
def jsOr (a b : JSValue) : JSValue := if jsTruthy a then a else b

/-- The keyGenerator of messageRateLimiter: userId from the stored session
identity (anonymous when absent), dash, the stringified first argument
defaulted to the string default. -/
def messageKeyGenerator (storedUserId : Option String) (args : List JSValue) : String :=
  let userId := match storedUserId with
    | some u => u
    | none => "anonymous"
  let operation := jsOr (args.getD 0 .undefV) (.strV "default")
  userId ++ "-" ++ jsToString operation

/-- The configuration of messageRateLimiter. -/
def messageRateLimiterConfig : RateLimitConfig := ⟨5, 30000⟩

/-- withRateLimit forwards the argument list of the wrapped function to the
key generator, and sendSingleDocument takes the request object as its only
argument, so the generator sees a one-element list holding that object. -/
def sendSingleDocumentArgs : List JSValue := [JSValue.objV]

/-- The limiter key every sendSingleDocument call derives. -/
def sendSingleDocumentKey (storedUserId : Option String) : String :=
  messageKeyGenerator storedUserId sendSingleDocumentArgs

/-- Claim C4: the gating configuration is indeed 5 admissions per 30000
milliseconds and the userId part behaves as claimed (stored identity, with
anonymous as the fallback), but the operation part of the key is the
stringified request object, [object Object], for every call, not an
operation name: the keyGenerator reads args[0], and args[0] of
sendSingleDocument is the request object.  This contradicts the stated key
shape and the source comment (use user ID and operation type as key), so the
code, not the claim, is at fault. -/
theorem sendSingleDocument_key_eval :
    messageRateLimiterConfig = ⟨5, 30000⟩ ∧
    (∀ u : String, sendSingleDocumentKey (some u) = u ++ "-" ++ "[object Object]") ∧
    sendSingleDocumentKey none = "anonymous-[object Object]" ∧
    (∀ u : String, sendSingleDocumentKey (some u) ≠ u ++ "-" ++ "sendSingleDocument") := by
  refine ⟨rfl, fun u => rfl, by decide, ?_⟩
  intro u h
  have hlen := congrArg String.length h
  have e1 : sendSingleDocumentKey (some u) = u ++ "-" ++ "[object Object]" := rfl
  rw [e1, String.length_append, String.length_append,
    String.length_append, String.length_append] at hlen
  have l1 : String.length "[object Object]" = 15 := by decide
  have l2 : String.length "sendSingleDocument" = 18 := by decide
  omega

/-! ## Captcha widget (src/src/components/PendingFiles.tsx, lines 105-137)

generateCaptcha draws 5 characters from a 36-symbol alphabet; the random
draws Math.floor(Math.random() * chars.length) are supplied as picks.  The
validation effect recomputes isValid from the current code and input;
toUpperJS embeds toUpperCase for the ASCII range the widget uses. -/

def captchaAlphabet : List Char := "ABCDEFGHIJKLMNOPQRSTUVWXYZ0123456789".data

def generateCaptcha (picks : Fin 5 → Fin 36) : String :=
  String.mk ((List.finRange 5).map fun i => captchaAlphabet.getD (picks i).val 'A')

def toUpperJS (s : String) : String := String.mk (s.data.map Char.toUpper)

/-- The validation effect: input matches the code after uppercasing and has
exactly the same length. -/
def captchaValid (captchaCode userInput : String) : Bool :=
  toUpperJS userInput == toUpperJS captchaCode && userInput.length == captchaCode.length

structure CaptchaState where
  captchaCode : String
  userInput : String
  isValid : Bool
deriving DecidableEq, Repr

/-- Typing into the input: the validation effect recomputes isValid. -/
def setUserInput (st : CaptchaState) (input : String) : CaptchaState :=
  { st with userInput := input, isValid := captchaValid st.captchaCode input }

/-- handleRefresh: a new code is generated, the input is cleared, and the
validation effect then runs on the new code and empty input. -/
def handleRefresh (picks : Fin 5 → Fin 36) (_st : CaptchaState) : CaptchaState :=
  { captchaCode := generateCaptcha picks, userInput := "",
    isValid := captchaValid (generateCaptcha picks) "" }

lemma captchaAlphabet_length : captchaAlphabet.length = 36 := by decide

lemma map_fix_of_mem {α : Type} (f : α → α) :
    ∀ l : List α, (∀ c ∈ l, f c = c) → l.map f = l := by
  intro l
  induction l with
  | nil => intro _; rfl
  | cons a l ih =>
    intro h
    have ha := h a (by simp)
    have hl := ih (fun c hc => h c (by simp [hc]))
    simp [ha, hl]

lemma generateCaptcha_length (picks : Fin 5 → Fin 36) :
    (generateCaptcha picks).length = 5 := by
  simp [generateCaptcha, String.length]

lemma generateCaptcha_mem (picks : Fin 5 → Fin 36) :
    ∀ c ∈ (generateCaptcha picks).data, c ∈ captchaAlphabet := by
  intro c hc
  simp only [generateCaptcha, List.mem_map] at hc
  obtain ⟨i, _, hi⟩ := hc
  have hlt : (picks i).val < captchaAlphabet.length := by
    rw [captchaAlphabet_length]; exact (picks i).isLt
  rw [List.getD_eq_getElem captchaAlphabet 'A' hlt] at hi
  rw [← hi]
  exact List.getElem_mem hlt

lemma alphabet_upper_fixed : ∀ c ∈ captchaAlphabet, c.toUpper = c := by decide

lemma generateCaptcha_upper (picks : Fin 5 → Fin 36) :
    toUpperJS (generateCaptcha picks) = generateCaptcha picks := by
  have hfix : ∀ c ∈ (generateCaptcha picks).data, c.toUpper = c :=
    fun c hc => alphabet_upper_fixed c (generateCaptcha_mem picks c hc)
  unfold toUpperJS
  rw [map_fix_of_mem Char.toUpper _ hfix]

/-- Claim C8, confirmed: every generated code has exactly 5 characters drawn
from the alphabet A-Z0-9; the input is reported valid iff its uppercasing
equals the generated code and its length equals the code length, so any
strictly shorter input (in particular a proper prefix of the code) is
invalid; and a refresh installs a freshly generated code, clears the input,
and reports validity false. -/
theorem captcha_generate_validate_refresh :
    (∀ picks : Fin 5 → Fin 36, (generateCaptcha picks).length = 5 ∧
      ∀ c ∈ (generateCaptcha picks).data, c ∈ captchaAlphabet) ∧
    (∀ (picks : Fin 5 → Fin 36) (input : String),
      captchaValid (generateCaptcha picks) input = true ↔
        (toUpperJS input = generateCaptcha picks ∧
          input.length = (generateCaptcha picks).length)) ∧
    (∀ (picks : Fin 5 → Fin 36) (input : String),
      input.length < (generateCaptcha picks).length →
      captchaValid (generateCaptcha picks) input = false) ∧
    (∀ (picks : Fin 5 → Fin 36) (st : CaptchaState),
      handleRefresh picks st = ⟨generateCaptcha picks, "", false⟩) := by
  refine ⟨?_, ?_, ?_, ?_⟩
  · intro picks
    exact ⟨generateCaptcha_length picks, generateCaptcha_mem picks⟩
  · intro picks input
    rw [captchaValid, generateCaptcha_upper]
    simp
  · intro picks input h
    have hne : input.length ≠ (generateCaptcha picks).length := Nat.ne_of_lt h
    simp [captchaValid, hne]
  · intro picks st
    have hlen : ((("" : String).length == (generateCaptcha picks).length)) = false := by
      rw [generateCaptcha_length picks]
      decide
    have hempty : captchaValid (generateCaptcha picks) "" = false := by
      simp only [captchaValid, hlen, Bool.and_false]
    rw [handleRefresh, hempty]

/-- A concrete draw for the claim C8 witness: index 0 five times, the code
AAAAA. -/
def picksZero : Fin 5 → Fin 36 := fun _ => ⟨0, by omega⟩

/-- Closed witness for captcha_generate_validate_refresh. -/
theorem captcha_generate_validate_refresh_witness :
    ((generateCaptcha picksZero).length = 5 ∧
      ∀ c ∈ (generateCaptcha picksZero).data, c ∈ captchaAlphabet) ∧
    (captchaValid (generateCaptcha picksZero) "aaaaa" = true ↔
      (toUpperJS "aaaaa" = generateCaptcha picksZero ∧
        ("aaaaa" : String).length = (generateCaptcha picksZero).length)) ∧
    captchaValid (generateCaptcha picksZero) "AA" = false ∧
    handleRefresh picksZero ⟨"X", "y", true⟩ = ⟨generateCaptcha picksZero, "", false⟩ :=
  ⟨captcha_generate_validate_refresh.1 picksZero,
    captcha_generate_validate_refresh.2.1 picksZero "aaaaa",
    captcha_generate_validate_refresh.2.2.1 picksZero "AA" (by decide),
    captcha_generate_validate_refresh.2.2.2 picksZero ⟨"X", "y", true⟩⟩

end Spec2Proof
